import Mathlib

set_option maxRecDepth 4000

/-!
Verification development for the Polaroid-light catalog-and-purchase backend.

The definitions below are a shallow embedding of the repository's domain
service layer (FilmService, UserService), its persistence gateway
(the Prisma repositories together with the uniqueness / foreign-key
constraints of prisma/schema.prisma), the fixed-window rate limiter
(src/middlewares/rateLimiter-middlewares.ts) and the error taxonomy mapper
(src/middlewares/error-middlewares.ts).  Timestamps are modelled as natural
numbers (milliseconds), the datastore as lists of rows, and JavaScript
string primitives (trim, toLowerCase) as explicit character-list functions.
-/

/-! ## JavaScript string primitives -/

/-- JS `String.prototype.trim`, modelled over the character list. -/
def strTrim (s : String) : String :=
  ⟨((s.data.dropWhile Char.isWhitespace).reverse.dropWhile Char.isWhitespace).reverse⟩

/-- JS `String.prototype.toLowerCase`, modelled over the character list. -/
def strToLower (s : String) : String :=
  ⟨s.data.map Char.toLower⟩

/-! ## Error model (src/types: ApiError, and the Prisma client error classes) -/

/-- The errors that can reach the error middleware: `ApiError` thrown by the
services, the Prisma client error classes thrown by the persistence layer,
or any other `Error`. -/
inductive AppError where
  | apiError (statusCode : Nat) (message : String) (isOperational : Bool)
  | knownRequestError (code : String) (target : String)
  | validationError
  | initError (errorCode : String)
  | unknownRequestError
  | genericError (name : String) (message : String)
deriving Repr, DecidableEq

/-- The `(status, message, operational)` triple the error middleware renders. -/
structure ErrorResponse where
  statusCode : Nat
  message : String
  isOperational : Bool
deriving Repr, DecidableEq

/-- `errorHandler` of src/middlewares/error-middlewares.ts: the instanceof
chain, the switch on the Prisma error code, and the 500 / non-operational
fallthrough for anything unrecognized. -/
def errorHandler : AppError → ErrorResponse
  | .apiError s m op => ⟨s, m, op⟩
  | .knownRequestError code target =>
    if code == "P2002" then ⟨409, "Duplicate value for " ++ target, true⟩
    else if code == "P2025" then ⟨404, "Record not found", true⟩
    else if code == "P2003" then ⟨400, "Invalid reference: related record does not exist", true⟩
    else if code == "P2016" then ⟨400, "Query interpretation error", true⟩
    else ⟨400, "Database error: " ++ code, true⟩
  | .validationError => ⟨400, "Invalid data provided", true⟩
  | .initError _ => ⟨500, "Database connection error", false⟩
  | .unknownRequestError => ⟨500, "Unknown database error occurred", false⟩
  | .genericError _ _ => ⟨500, "Internal server error", false⟩

/-! ## Data model (prisma/schema.prisma) -/

/-- Row of model `User`. -/
structure User where
  id : String
  email : String
  name : String
  createdAt : Nat
deriving Repr, DecidableEq

/-- Row of model `Film`. -/
structure Film where
  id : String
  title : String
  description : String
  price : Int
  videoUrl : String
  uploadedBy : String
  createdAt : Nat
deriving Repr, DecidableEq

/-- Row of model `Purchase`. -/
structure Purchase where
  id : String
  userId : String
  filmId : String
  createdAt : Nat
deriving Repr, DecidableEq

/-- The three relations of the datastore. -/
structure DB where
  users : List User
  films : List Film
  purchases : List Purchase
deriving Repr, DecidableEq

def emptyDB : DB := ⟨[], [], []⟩

/-! ## Rate limiter (src/middlewares/rateLimiter-middlewares.ts) -/

structure RateEntry where
  count : Nat
  resetTime : Nat
deriving Repr, DecidableEq

/-- The module-level `store : Map<string, {count, resetTime}>`. -/
def RateStore : Type := String → Option RateEntry

def emptyRateStore : RateStore := fun _ => none

structure RateLimitOptions where
  windowMs : Nat
  max : Nat
  message : String
deriving Repr, DecidableEq

/-- One admission check of `rateLimiter`: start a fresh window with count 1
when no entry exists or the entry's window has expired, otherwise increment;
store the entry back; reject with a 429 `ApiError` when the post-increment
count exceeds the configured max. -/
def rateLimiter (opts : RateLimitOptions) (store : RateStore) (key : String) (now : Nat) :
    Except AppError Unit × RateStore :=
  let entry : RateEntry :=
    match store key with
    | some e => if e.resetTime < now then ⟨1, now + opts.windowMs⟩ else ⟨e.count + 1, e.resetTime⟩
    | none => ⟨1, now + opts.windowMs⟩
  let store' : RateStore := fun k => if k = key then some entry else store k
  (if opts.max < entry.count then .error (.apiError 429 opts.message true) else .ok (), store')

/-- Runs a sequence of admission checks for one key at the given times. -/
def rateLimiterRun (opts : RateLimitOptions) (store : RateStore) (key : String) :
    List Nat → List (Except AppError Unit) × RateStore
  | [] => ([], store)
  | t :: ts =>
    let (r, store') := rateLimiter opts store key t
    let (rs, store'') := rateLimiterRun opts store' key ts
    (r :: rs, store'')

/-! ## Persistence gateway (src/repositories, with the storage constraints of
prisma/schema.prisma: `User.email @unique`, `Purchase @@unique([userId, filmId])`,
both foreign keys ON DELETE RESTRICT, and the primary keys). -/

def UserRepository.findById (db : DB) (id : String) : Option User :=
  db.users.find? (fun u => u.id == id)

def UserRepository.findByEmail (db : DB) (email : String) : Option User :=
  db.users.find? (fun u => u.email == email)

/-- `prisma.user.create`: rejects a duplicate primary key or a duplicate
value for the unique `email` column with a P2002 error, otherwise inserts. -/
def UserRepository.create (db : DB) (u : User) : Except AppError DB :=
  if db.users.any (fun v => v.id == u.id) then .error (.knownRequestError "P2002" "id")
  else if db.users.any (fun v => v.email == u.email) then .error (.knownRequestError "P2002" "email")
  else .ok { db with users := db.users ++ [u] }

/-- A partial user update object: `email` / `name` present or absent. -/
def applyUserUpdate (u : User) (email name : Option String) : User :=
  { u with email := email.getD u.email, name := name.getD u.name }

/-- `prisma.user.update({where: {id}, data})`: P2025 when the record is
absent, P2002 when a supplied email is already used by another row. -/
def UserRepository.update (db : DB) (id : String) (email name : Option String) :
    Except AppError (User × DB) :=
  match UserRepository.findById db id with
  | none => .error (.knownRequestError "P2025" "")
  | some u =>
    if (match email with
        | some e => db.users.any (fun v => v.email == e && v.id != id)
        | none => false) then
      .error (.knownRequestError "P2002" "email")
    else
      .ok (applyUserUpdate u email name,
        { db with users := db.users.map (fun v => if v.id == id then applyUserUpdate v email name else v) })

/-- `prisma.user.delete({where: {id}})`: P2025 when absent; the RESTRICT
foreign key from Purchase.userId rejects the delete while purchases exist. -/
def UserRepository.delete (db : DB) (id : String) : Except AppError DB :=
  if !db.users.any (fun u => u.id == id) then .error (.knownRequestError "P2025" "")
  else if db.purchases.any (fun p => p.userId == id) then .error (.knownRequestError "P2003" "userId")
  else .ok { db with users := db.users.filter (fun u => u.id != id) }

def FilmRepository.findById (db : DB) (id : String) : Option Film :=
  db.films.find? (fun f => f.id == id)

/-- `prisma.film.create`: rejects a duplicate primary key, otherwise inserts. -/
def FilmRepository.create (db : DB) (f : Film) : Except AppError DB :=
  if db.films.any (fun g => g.id == f.id) then .error (.knownRequestError "P2002" "id")
  else .ok { db with films := db.films ++ [f] }

/-- A partial film update object built by `FilmService.updateFilm`. -/
structure FilmUpdateData where
  title : Option String
  description : Option String
  price : Option Int
  videoUrl : Option String
deriving Repr, DecidableEq

def applyFilmUpdate (f : Film) (d : FilmUpdateData) : Film :=
  { f with
    title := d.title.getD f.title,
    description := d.description.getD f.description,
    price := d.price.getD f.price,
    videoUrl := d.videoUrl.getD f.videoUrl }

/-- `prisma.film.update({where: {id}, data})`: P2025 when absent, otherwise
the supplied fields replace the stored ones. -/
def FilmRepository.update (db : DB) (id : String) (d : FilmUpdateData) :
    Except AppError (Film × DB) :=
  match FilmRepository.findById db id with
  | none => .error (.knownRequestError "P2025" "")
  | some f =>
    .ok (applyFilmUpdate f d,
      { db with films := db.films.map (fun g => if g.id == id then applyFilmUpdate g d else g) })

/-- `prisma.film.delete({where: {id}})`: P2025 when absent; the RESTRICT
foreign key from Purchase.filmId rejects the delete while purchases exist. -/
def FilmRepository.delete (db : DB) (id : String) : Except AppError DB :=
  if !db.films.any (fun f => f.id == id) then .error (.knownRequestError "P2025" "")
  else if db.purchases.any (fun p => p.filmId == id) then .error (.knownRequestError "P2003" "filmId")
  else .ok { db with films := db.films.filter (fun f => f.id != id) }

def PurchaseRepository.findByUserAndFilm (db : DB) (userId filmId : String) : Option Purchase :=
  db.purchases.find? (fun p => p.userId == userId && p.filmId == filmId)

def PurchaseRepository.checkIfPurchased (db : DB) (userId filmId : String) : Bool :=
  (PurchaseRepository.findByUserAndFilm db userId filmId).isSome

def PurchaseRepository.getFilmPurchaseCount (db : DB) (filmId : String) : Nat :=
  (db.purchases.filter (fun p => p.filmId == filmId)).length

/-- `prisma.purchase.create`: the primary key and the compound unique index
`(userId, filmId)` reject duplicates with P2002; the two RESTRICT foreign
keys reject references to absent rows with P2003; otherwise inserts. -/
def PurchaseRepository.createPurchase (db : DB) (pid : String) (now : Nat) (userId filmId : String) :
    Except AppError (Purchase × DB) :=
  if db.purchases.any (fun q => q.id == pid) then .error (.knownRequestError "P2002" "id")
  else if db.purchases.any (fun q => q.userId == userId && q.filmId == filmId) then
    .error (.knownRequestError "P2002" "userId,filmId")
  else if !db.users.any (fun u => u.id == userId) then .error (.knownRequestError "P2003" "userId")
  else if !db.films.any (fun f => f.id == filmId) then .error (.knownRequestError "P2003" "filmId")
  else
    let p : Purchase := ⟨pid, userId, filmId, now⟩
    .ok (p, { db with purchases := db.purchases ++ [p] })

/-! ## User service (UserService of the services layer) -/

structure CreateUserDto where
  userId : Option String
  email : String
  name : String
deriving Repr, DecidableEq

/-- Splits a character list at every occurrence of the at sign. -/
def splitAtSign : List Char → List (List Char)
  | [] => [[]]
  | c :: cs =>
    let r := splitAtSign cs
    if c = '@' then [] :: r
    else
      match r with
      | h :: t => (c :: h) :: t
      | [] => [[c]]

/-- The test of the structural email regex of `UserService.createUser`:
one at sign separating a non-empty whitespace-free local part from a
whitespace-free domain that contains an interior dot. -/
def emailRegexTest (s : String) : Bool :=
  match splitAtSign s.data with
  | [localPart, domain] =>
    !localPart.isEmpty && localPart.all (fun c => !c.isWhitespace)
      && domain.all (fun c => !c.isWhitespace)
      && ((domain.drop 1).dropLast.contains '.')
  | _ => false

/-- `UserService.createUser`: email-shape check, duplicate-email check on the
email exactly as supplied, empty-name check, then persistence with the email
lowercased and the name trimmed; `freshId` stands for the generated uuid the
JS `data.userId || uuidv4()` falls back to. -/
def UserService.createUser (db : DB) (freshId : String) (now : Nat) (data : CreateUserDto) :
    Except AppError (User × DB) :=
  if !emailRegexTest data.email then
    .error (.apiError 400 "Invalid email format" true)
  else
    match UserRepository.findByEmail db data.email with
    | some _ => .error (.apiError 409 "Email already exists" true)
    | none =>
      if strTrim data.name == "" then .error (.apiError 400 "Name is required" true)
      else
        let newUser : User :=
          { id := match data.userId with
                  | some uid => if uid == "" then freshId else uid
                  | none => freshId,
            email := strToLower data.email,
            name := strTrim data.name,
            createdAt := now }
        (UserRepository.create db newUser).map (fun db' => (newUser, db'))

def UserService.getUserById (db : DB) (id : String) : Except AppError User :=
  match UserRepository.findById db id with
  | none => .error (.apiError 404 "User not found" true)
  | some u => .ok u

/-- The POST /users pipeline: `validate(userSchemas.create)` followed by
`UserService.createUser`.  The Joi schema trims and lowercases the email,
trims the name and rejects an empty name; `stripUnknown` removes any
caller-supplied `userId`, so the service generates the id.  Joi's own
email-format rule is not modelled separately: the service re-checks the
shape with its regex on the already-normalized value. -/
def createAccount (db : DB) (freshId : String) (now : Nat) (email name : String) :
    Except AppError (User × DB) :=
  if strTrim name == "" then
    .error (.apiError 400 "\"name\" is not allowed to be empty" true)
  else
    UserService.createUser db freshId now
      { userId := none, email := strToLower (strTrim email), name := strTrim name }

structure UpdateUserDto where
  email : Option String
  name : Option String
deriving Repr, DecidableEq

/-- `UserService.updateUser`: existence check, then per-field validation
(email shape, email uniqueness excluding the record itself, non-empty name),
then persistence with email lowercased and name trimmed. -/
def UserService.updateUser (db : DB) (id : String) (d : UpdateUserDto) :
    Except AppError (User × DB) :=
  match UserService.getUserById db id with
  | .error e => .error e
  | .ok _ =>
    if (match d.email with
        | some em => !emailRegexTest em
        | none => false) then .error (.apiError 400 "Invalid email format" true)
    else if (match d.email with
        | some em =>
          match UserRepository.findByEmail db em with
          | some existing => existing.id != id
          | none => false
        | none => false) then .error (.apiError 409 "Email already exists" true)
    else if (match d.name with
        | some n => strTrim n == ""
        | none => false) then .error (.apiError 400 "Name cannot be empty" true)
    else UserRepository.update db id (d.email.map strToLower) (d.name.map strTrim)

def UserService.deleteUser (db : DB) (id : String) : Except AppError (Unit × DB) :=
  match UserService.getUserById db id with
  | .error e => .error e
  | .ok _ => (UserRepository.delete db id).map (fun db' => ((), db'))

/-! ## Film service and pagination (FilmService, FilmRepository.findManyPaginated) -/

structure CreateFilmDto where
  title : String
  description : String
  price : Int
  videoUrl : String
  uploadedBy : String
deriving Repr, DecidableEq

/-- Inserts a film into a list kept in descending creation-time order. -/
def insertFilmDesc (f : Film) : List Film → List Film
  | [] => [f]
  | g :: gs => if g.createdAt ≤ f.createdAt then f :: g :: gs else g :: insertFilmDesc f gs

/-- The `orderBy: { createdAt: 'desc' }` scan order of the film relation. -/
def sortFilmsDesc (l : List Film) : List Film := l.foldr insertFilmDesc []

structure PaginatedFilms where
  films : List Film
  total : Nat
  page : Int
  totalPages : Nat
deriving Repr, DecidableEq

/-- `Math.ceil(total / limit)` for a positive `limit`. -/
def mathCeilDiv (total limit : Nat) : Nat := (total + limit - 1) / limit

/-- `FilmRepository.findManyPaginated`: `skip = (page - 1) * limit`, ordered
scan, one transaction pairing the page with the total count, and
`totalPages = Math.ceil(total / limit)`.  Prisma rejects a negative `skip`
with a client validation error.  (A negative `take`, reachable only through
a direct service call with a negative limit, is outside every claim and is
modelled as an empty page via `Int.toNat`; likewise `Math.ceil(total / 0)`,
which in JS is Infinity, is not modelled.) -/
def FilmRepository.findManyPaginated (db : DB) (page limit : Int) :
    Except AppError PaginatedFilms :=
  let skip := (page - 1) * limit
  if skip < 0 then .error .validationError
  else
    .ok { films := ((sortFilmsDesc db.films).drop skip.toNat).take limit.toNat,
          total := db.films.length,
          page := page,
          totalPages := mathCeilDiv db.films.length limit.toNat }

/-- `FilmService.getAllFilms(page = 1, limit = 20)`: the TS default parameter
values apply exactly when an argument is `undefined` (here: `none`). -/
def FilmService.getAllFilms (db : DB) (page limit : Option Int) :
    Except AppError PaginatedFilms :=
  FilmRepository.findManyPaginated db (page.getD 1) (limit.getD 20)

/-- `parseInt(q) || d` of the controller: `none` models a param that is
missing or parses to NaN; JS `||` also replaces a parsed 0 by the default. -/
def numOrDefault (parsed : Option Int) (d : Int) : Int :=
  match parsed with
  | none => d
  | some n => if n == 0 then d else n

/-- `FilmController.getAllFilms`: query-string parsing in front of the
service (the GET /films route applies no validation middleware). -/
def FilmController.getAllFilms (db : DB) (pageParam limitParam : Option Int) :
    Except AppError PaginatedFilms :=
  FilmService.getAllFilms db (some (numOrDefault pageParam 1)) (some (numOrDefault limitParam 20))

/-- `FilmService.createFilm`: negative-price and empty-title validation, then
persistence with title and description trimmed. -/
def FilmService.createFilm (db : DB) (freshId : String) (now : Nat) (data : CreateFilmDto) :
    Except AppError (Film × DB) :=
  if data.price < 0 then .error (.apiError 400 "Price cannot be negative" true)
  else if strTrim data.title == "" then .error (.apiError 400 "Title is required" true)
  else
    let f : Film := ⟨freshId, strTrim data.title, strTrim data.description,
                     data.price, data.videoUrl, data.uploadedBy, now⟩
    (FilmRepository.create db f).map (fun db' => (f, db'))

def FilmService.getFilmById (db : DB) (id : String) : Except AppError Film :=
  match FilmRepository.findById db id with
  | none => .error (.apiError 404 "Film not found" true)
  | some f => .ok f

/-- `FilmService.purchaseFilm`: load the film (404 if absent), load the user
and auto-provision one from the id when absent, reject an existing
(user, film) purchase with a 409 conflict, then create the purchase. -/
def FilmService.purchaseFilm (db : DB) (pid : String) (now : Nat) (userId filmId : String) :
    Except AppError (Purchase × DB) :=
  match FilmService.getFilmById db filmId with
  | .error e => .error e
  | .ok _ =>
    let provision : Except AppError (User × DB) :=
      match UserRepository.findById db userId with
      | some u => .ok (u, db)
      | none =>
        let newUser : User := ⟨userId, "user-" ++ userId ++ "@polaroid.com", "User " ++ userId, now⟩
        (UserRepository.create db newUser).map (fun db1 => (newUser, db1))
    match provision with
    | .error e => .error e
    | .ok (user, db1) =>
      if PurchaseRepository.checkIfPurchased db1 user.id filmId then
        .error (.apiError 409 "Film already purchased by this user" true)
      else
        PurchaseRepository.createPurchase db1 pid now user.id filmId

/-- `FilmService.deleteFilm`: existence check, purchase-count guard (a 400
`ApiError`), then deletion. -/
def FilmService.deleteFilm (db : DB) (id : String) : Except AppError (Unit × DB) :=
  match FilmService.getFilmById db id with
  | .error e => .error e
  | .ok _ =>
    if 0 < PurchaseRepository.getFilmPurchaseCount db id then
      .error (.apiError 400 "Cannot delete film with existing purchases" true)
    else (FilmRepository.delete db id).map (fun db' => ((), db'))

structure FilmStats where
  filmId : String
  totalPurchases : Nat
deriving Repr, DecidableEq

/-- `FilmService.getFilmPurchaseStats`: existence check, then the purchase
count of the film. -/
def FilmService.getFilmPurchaseStats (db : DB) (id : String) : Except AppError FilmStats :=
  match FilmService.getFilmById db id with
  | .error e => .error e
  | .ok _ => .ok ⟨id, PurchaseRepository.getFilmPurchaseCount db id⟩

/-! ## User statistics (UserRepository.getUserStats, UserService.getUserStats) -/

/-- Inserts a purchase into a list kept in ascending creation-time order. -/
def insertPurchaseAsc (p : Purchase) : List Purchase → List Purchase
  | [] => [p]
  | q :: qs => if p.createdAt ≤ q.createdAt then p :: q :: qs else q :: insertPurchaseAsc p qs

/-- The `orderBy: { createdAt: 'asc' }` scan order of a purchase set. -/
def sortPurchasesAsc (l : List Purchase) : List Purchase := l.foldr insertPurchaseAsc []

structure UserStats where
  totalPurchases : Nat
  totalSpent : Int
  firstPurchase : Option Nat
  lastPurchase : Option Nat
deriving Repr, DecidableEq

/-- The `include: { film: { select: { price } } }` join of `getUserStats`:
the current price of the purchased film.  The foreign key on
`Purchase.filmId` guarantees the film row exists; no theorem relies on the
0 fallback. -/
def filmPriceAt (db : DB) (filmId : String) : Int :=
  match FilmRepository.findById db filmId with
  | some f => f.price
  | none => 0

/-- `UserRepository.getUserStats`: one transaction pairing the purchase count
with the purchases ordered by creation time ascending; `totalSpent` reduces
over the joined current film prices; first/last purchase timestamps come
from the ends of the ordered list, null when there are none. -/
def UserRepository.getUserStats (db : DB) (userId : String) : UserStats :=
  let purchases := sortPurchasesAsc (db.purchases.filter (fun p => p.userId == userId))
  { totalPurchases := (db.purchases.filter (fun p => p.userId == userId)).length,
    totalSpent := purchases.foldl (fun s p => s + filmPriceAt db p.filmId) 0,
    firstPurchase := purchases.head?.map (fun p => p.createdAt),
    lastPurchase := purchases.getLast?.map (fun p => p.createdAt) }

/-- `UserService.getUserStats`: existence check, then the aggregation. -/
def UserService.getUserStats (db : DB) (userId : String) : Except AppError UserStats :=
  match UserService.getUserById db userId with
  | .error e => .error e
  | .ok _ => .ok (UserRepository.getUserStats db userId)

/-! ## The mutating service surface as a transition system -/

/-- `FilmService.updateFilm`: existence check, re-validation of a supplied
price, then a partial update carrying only the supplied fields (title and
description trimmed). -/
def FilmService.updateFilm (db : DB) (id : String) (d : FilmUpdateData) :
    Except AppError (Film × DB) :=
  match FilmService.getFilmById db id with
  | .error e => .error e
  | .ok _ =>
    if (match d.price with
        | some pr => decide (pr < 0)
        | none => false) then .error (.apiError 400 "Price cannot be negative" true)
    else FilmRepository.update db id
      { d with title := d.title.map strTrim, description := d.description.map strTrim }

/-- One invocation of a mutating service operation. -/
inductive Op where
  | createUser (freshId : String) (now : Nat) (data : CreateUserDto)
  | updateUser (id : String) (d : UpdateUserDto)
  | deleteUser (id : String)
  | createFilm (freshId : String) (now : Nat) (data : CreateFilmDto)
  | updateFilm (id : String) (d : FilmUpdateData)
  | deleteFilm (id : String)
  | purchaseFilm (pid : String) (now : Nat) (userId filmId : String)
deriving Repr

/-- The state after a service call: the new state on success, the unchanged
state when the call raised an error. -/
def stateAfter {α : Type} (db : DB) : Except AppError (α × DB) → DB
  | .ok (_, db') => db'
  | .error _ => db

def applyOp (db : DB) : Op → DB
  | .createUser f n d => stateAfter db (UserService.createUser db f n d)
  | .updateUser i d => stateAfter db (UserService.updateUser db i d)
  | .deleteUser i => stateAfter db (UserService.deleteUser db i)
  | .createFilm f n d => stateAfter db (FilmService.createFilm db f n d)
  | .updateFilm i d => stateAfter db (FilmService.updateFilm db i d)
  | .deleteFilm i => stateAfter db (FilmService.deleteFilm db i)
  | .purchaseFilm p n u f => stateAfter db (FilmService.purchaseFilm db p n u f)

/-- The state reached from the empty store by a sequence of service calls. -/
def runOps (ops : List Op) : DB := ops.foldl applyOp emptyDB

/-- Two purchase rows for the same (account, item) pair. -/
def samePair (p q : Purchase) : Prop := p.userId = q.userId ∧ p.filmId = q.filmId

/-- At most one Purchase per (account, item) pair. -/
def PairsUnique (db : DB) : Prop :=
  List.Pairwise (fun p q => ¬ samePair p q) db.purchases

/-- Referential integrity of the two Purchase foreign keys, which the
storage layer enforces. -/
def Wf (db : DB) : Prop :=
  (∀ p ∈ db.purchases, ∃ u ∈ db.users, u.id = p.userId) ∧
  (∀ p ∈ db.purchases, ∃ f ∈ db.films, f.id = p.filmId)

/-! ## Helper lemmas -/

/-- The entry `rateLimiter` computes and stores for the checked key. -/
def rateNextEntry (opts : RateLimitOptions) (store : RateStore) (key : String) (now : Nat) :
    RateEntry :=
  match store key with
  | some e => if e.resetTime < now then ⟨1, now + opts.windowMs⟩ else ⟨e.count + 1, e.resetTime⟩
  | none => ⟨1, now + opts.windowMs⟩

theorem rateLimiter_eq (opts : RateLimitOptions) (store : RateStore) (key : String) (now : Nat) :
    rateLimiter opts store key now =
      ((if opts.max < (rateNextEntry opts store key now).count then
          .error (.apiError 429 opts.message true) else .ok ()),
       fun k => if k = key then some (rateNextEntry opts store key now) else store k) := rfl

theorem rateLimiter_store_self (opts : RateLimitOptions) (store : RateStore) (key : String)
    (now : Nat) : (rateLimiter opts store key now).2 key = some (rateNextEntry opts store key now) := by
  rw [rateLimiter_eq]
  simp

theorem rateLimiter_saturated_step (opts : RateLimitOptions) (store : RateStore) (key : String)
    (now : Nat) (e : RateEntry) (hs : store key = some e) (hc : opts.max < e.count)
    (ht : now ≤ e.resetTime) :
    (rateLimiter opts store key now).1 = .error (.apiError 429 opts.message true) ∧
      (rateLimiter opts store key now).2 key = some ⟨e.count + 1, e.resetTime⟩ := by
  have hentry : rateNextEntry opts store key now = ⟨e.count + 1, e.resetTime⟩ := by
    simp only [rateNextEntry, hs, if_neg (Nat.not_lt.mpr ht)]
  rw [rateLimiter_eq]
  simp only [hentry, if_pos rfl]
  exact ⟨by rw [if_pos (Nat.lt_succ_of_lt hc)], rfl⟩

theorem rateLimiter_saturated_run (opts : RateLimitOptions) (key : String) :
    ∀ (ts : List Nat) (store : RateStore) (e : RateEntry), store key = some e →
      opts.max < e.count → (∀ t ∈ ts, t ≤ e.resetTime) →
      (rateLimiterRun opts store key ts).1
        = ts.map (fun _ => .error (.apiError 429 opts.message true)) := by
  intro ts
  induction ts with
  | nil => intro store e _ _ _; rfl
  | cons t ts ih =>
    intro store e hs hc hts
    have ht : t ≤ e.resetTime := hts t (List.mem_cons_self t ts)
    have hstep := rateLimiter_saturated_step opts store key t e hs hc ht
    have hrest := ih ((rateLimiter opts store key t).2) ⟨e.count + 1, e.resetTime⟩ hstep.2
      (Nat.lt_succ_of_lt hc) (fun t' ht' => hts t' (List.mem_cons_of_mem t ht'))
    simp only [rateLimiterRun, List.map_cons]
    rw [hrest, hstep.1]

/-! ## Claim C3: fixed-window admission behaviour -/

/-- C3: on each admission check, a missing or expired entry starts a fresh
window with count 1 and an otherwise live entry is incremented; the check is
rejected with the 429 error exactly when the post-increment count exceeds the
configured max.  With max = 2, three checks inside one window for the same
key yield admit, admit, reject(429), and a check strictly after the window's
reset time starts a fresh window and admits. -/
theorem rateLimiter_fixed_window_spec :
    (∀ (opts : RateLimitOptions) (store : RateStore) (key : String) (now : Nat),
      (store key = none ∨ ∃ e, store key = some e ∧ e.resetTime < now) →
        (rateLimiter opts store key now).2 key = some ⟨1, now + opts.windowMs⟩ ∧
        ((rateLimiter opts store key now).1 = .error (.apiError 429 opts.message true) ↔
          opts.max < 1)) ∧
    (∀ (opts : RateLimitOptions) (store : RateStore) (key : String) (now : Nat) (e : RateEntry),
      store key = some e → ¬ e.resetTime < now →
        (rateLimiter opts store key now).2 key = some ⟨e.count + 1, e.resetTime⟩ ∧
        ((rateLimiter opts store key now).1 = .error (.apiError 429 opts.message true) ↔
          opts.max < e.count + 1) ∧
        ((rateLimiter opts store key now).1 = .ok () ↔ e.count + 1 ≤ opts.max)) ∧
    (∀ (windowMs : Nat) (msg : String) (store : RateStore) (key : String) (t1 t2 t3 : Nat),
      store key = none → t1 ≤ t2 → t2 ≤ t3 → t3 ≤ t1 + windowMs →
      (rateLimiter ⟨windowMs, 2, msg⟩ store key t1).1 = .ok () ∧
      (rateLimiter ⟨windowMs, 2, msg⟩
        (rateLimiter ⟨windowMs, 2, msg⟩ store key t1).2 key t2).1 = .ok () ∧
      (rateLimiter ⟨windowMs, 2, msg⟩
        (rateLimiter ⟨windowMs, 2, msg⟩
          (rateLimiter ⟨windowMs, 2, msg⟩ store key t1).2 key t2).2 key t3).1
        = .error (.apiError 429 msg true) ∧
      ∀ t4, t1 + windowMs < t4 →
        (rateLimiter ⟨windowMs, 2, msg⟩
          (rateLimiter ⟨windowMs, 2, msg⟩
            (rateLimiter ⟨windowMs, 2, msg⟩
              (rateLimiter ⟨windowMs, 2, msg⟩ store key t1).2 key t2).2 key t3).2 key t4).1
          = .ok ()) := by
  refine ⟨?_, ?_, ?_⟩
  · intro opts store key now h
    have hentry : rateNextEntry opts store key now = ⟨1, now + opts.windowMs⟩ := by
      rcases h with h | ⟨e, he, hlt⟩
      · simp [rateNextEntry, h]
      · simp [rateNextEntry, he, hlt]
    rw [rateLimiter_eq]
    simp only [hentry, if_pos rfl]
    constructor
    · rfl
    · constructor
      · intro h429
        by_contra hmax
        rw [if_neg hmax] at h429
        exact Except.noConfusion h429
      · intro hmax; rw [if_pos hmax]
  · intro opts store key now e hs hnl
    have hentry : rateNextEntry opts store key now = ⟨e.count + 1, e.resetTime⟩ := by
      simp [rateNextEntry, hs, hnl]
    rw [rateLimiter_eq]
    simp only [hentry, if_pos rfl]
    refine ⟨rfl, ?_, ?_⟩
    · constructor
      · intro h429
        by_contra hmax
        rw [if_neg hmax] at h429
        exact Except.noConfusion h429
      · intro hmax; rw [if_pos hmax]
    · constructor
      · intro hok
        by_contra hmax
        rw [if_pos (Nat.lt_of_not_le hmax)] at hok
        exact Except.noConfusion hok
      · intro hle; rw [if_neg (Nat.not_lt.mpr hle)]
  · intro windowMs msg store key t1 t2 t3 hnone h12 h23 h3w
    have e1 : rateNextEntry ⟨windowMs, 2, msg⟩ store key t1 = ⟨1, t1 + windowMs⟩ := by
      simp [rateNextEntry, hnone]
    have s1 : (rateLimiter ⟨windowMs, 2, msg⟩ store key t1).2 key = some ⟨1, t1 + windowMs⟩ := by
      rw [rateLimiter_store_self, e1]
    have r1 : (rateLimiter ⟨windowMs, 2, msg⟩ store key t1).1 = .ok () := by
      rw [rateLimiter_eq]; simp [e1]
    have hn2 : ¬ t1 + windowMs < t2 := Nat.not_lt.mpr (Nat.le_trans h23 h3w)
    have e2 : rateNextEntry ⟨windowMs, 2, msg⟩ (rateLimiter ⟨windowMs, 2, msg⟩ store key t1).2
        key t2 = ⟨2, t1 + windowMs⟩ := by
      simp [rateNextEntry, s1, hn2]
    have s2 : (rateLimiter ⟨windowMs, 2, msg⟩
        (rateLimiter ⟨windowMs, 2, msg⟩ store key t1).2 key t2).2 key
        = some ⟨2, t1 + windowMs⟩ := by
      rw [rateLimiter_store_self, e2]
    have r2 : (rateLimiter ⟨windowMs, 2, msg⟩
        (rateLimiter ⟨windowMs, 2, msg⟩ store key t1).2 key t2).1 = .ok () := by
      rw [rateLimiter_eq]; simp [e2]
    have hn3 : ¬ t1 + windowMs < t3 := Nat.not_lt.mpr h3w
    have e3 : rateNextEntry ⟨windowMs, 2, msg⟩
        (rateLimiter ⟨windowMs, 2, msg⟩
          (rateLimiter ⟨windowMs, 2, msg⟩ store key t1).2 key t2).2 key t3
        = ⟨3, t1 + windowMs⟩ := by
      simp [rateNextEntry, s2, hn3]
    have s3 : (rateLimiter ⟨windowMs, 2, msg⟩
        (rateLimiter ⟨windowMs, 2, msg⟩
          (rateLimiter ⟨windowMs, 2, msg⟩ store key t1).2 key t2).2 key t3).2 key
        = some ⟨3, t1 + windowMs⟩ := by
      rw [rateLimiter_store_self, e3]
    have r3 : (rateLimiter ⟨windowMs, 2, msg⟩
        (rateLimiter ⟨windowMs, 2, msg⟩
          (rateLimiter ⟨windowMs, 2, msg⟩ store key t1).2 key t2).2 key t3).1
        = .error (.apiError 429 msg true) := by
      rw [rateLimiter_eq]; simp [e3]
    refine ⟨r1, r2, r3, ?_⟩
    intro t4 h4
    have e4 : rateNextEntry ⟨windowMs, 2, msg⟩
        (rateLimiter ⟨windowMs, 2, msg⟩
          (rateLimiter ⟨windowMs, 2, msg⟩
            (rateLimiter ⟨windowMs, 2, msg⟩ store key t1).2 key t2).2 key t3).2 key t4
        = ⟨1, t4 + windowMs⟩ := by
      simp [rateNextEntry, s3, h4]
    rw [rateLimiter_eq]; simp [e4]

/-- Witness for C3: the spec's example `{windowMs: 1000, max: 2}` with three
calls inside the window and a fourth after it elapses. -/
theorem rateLimiter_fixed_window_spec_witness :
    (rateLimiter ⟨1000, 2, "m"⟩ emptyRateStore "k" 0).1 = .ok () ∧
    (rateLimiter ⟨1000, 2, "m"⟩
      (rateLimiter ⟨1000, 2, "m"⟩ emptyRateStore "k" 0).2 "k" 10).1 = .ok () ∧
    (rateLimiter ⟨1000, 2, "m"⟩
      (rateLimiter ⟨1000, 2, "m"⟩
        (rateLimiter ⟨1000, 2, "m"⟩ emptyRateStore "k" 0).2 "k" 10).2 "k" 999).1
      = .error (.apiError 429 "m" true) ∧
    (rateLimiter ⟨1000, 2, "m"⟩
      (rateLimiter ⟨1000, 2, "m"⟩
        (rateLimiter ⟨1000, 2, "m"⟩
          (rateLimiter ⟨1000, 2, "m"⟩ emptyRateStore "k" 0).2 "k" 10).2 "k" 999).2 "k" 1500).1
      = .ok () := by
  have h := rateLimiter_fixed_window_spec.2.2 1000 "m" emptyRateStore "k" 0 10 999 rfl
    (by decide) (by decide) (by decide)
  exact ⟨h.1, h.2.1, h.2.2.1, h.2.2.2 1500 (by decide)⟩

/-! ## Claim C10: a rejection saturates the window -/

/-- C10: rejected checks still increment the counter, so once a check for a
key is rejected, every later check for that key at a time not past the
stored window's reset time is rejected as well: admission never recurs
within the same window after the first rejection. -/
theorem rateLimiter_reject_persists :
    ∀ (opts : RateLimitOptions) (store : RateStore) (key : String) (now : Nat)
      (e : RateEntry) (ts : List Nat),
      (rateLimiter opts store key now).1 = .error (.apiError 429 opts.message true) →
      (rateLimiter opts store key now).2 key = some e →
      (∀ t ∈ ts, t ≤ e.resetTime) →
      (rateLimiterRun opts ((rateLimiter opts store key now).2) key ts).1
        = ts.map (fun _ => .error (.apiError 429 opts.message true)) := by
  intro opts store key now e ts hrej hstore hts
  have hsat : opts.max < e.count := by
    have hself := rateLimiter_store_self opts store key now
    have he : e = rateNextEntry opts store key now := by
      rw [hself] at hstore
      exact (Option.some.injEq _ _ ▸ hstore.symm)
    rw [rateLimiter_eq] at hrej
    by_contra hmax
    rw [he] at hmax
    simp only [if_neg hmax] at hrej
    exact Except.noConfusion hrej
  exact rateLimiter_saturated_run opts key ts _ e hstore hsat hts

/-- Witness for C10: max = 1, a first saturating rejection at time 5, then
two further checks inside the window, both rejected. -/
theorem rateLimiter_reject_persists_witness :
    (rateLimiterRun ⟨1000, 1, "m"⟩
      ((rateLimiter ⟨1000, 1, "m"⟩
        (fun k => if k = "k" then some ⟨1, 1000⟩ else none) "k" 5).2) "k" [600, 1000]).1
      = [.error (.apiError 429 "m" true), .error (.apiError 429 "m" true)] := by
  have h := rateLimiter_reject_persists ⟨1000, 1, "m"⟩
    (fun k => if k = "k" then some ⟨1, 1000⟩ else none) "k" 5 ⟨2, 1000⟩ [600, 1000]
    (by rfl) (by rfl) (by intro t ht; fin_cases ht <;> decide)
  simpa using h

/-! ## Claim C5: the Internal fallthrough of the error taxonomy -/

/-- C5 counterexample: a storage known-request error with the unrecognized
code P2000 is mapped to status 400 and operational = true by the default
branch of the switch, not to Internal / 500 / non-operational as claimed. -/
theorem errorHandler_unrecognized_code_counterexample :
    (errorHandler (.knownRequestError "P2000" "x")).statusCode = 400 ∧
    (errorHandler (.knownRequestError "P2000" "x")).statusCode ≠ 500 ∧
    (errorHandler (.knownRequestError "P2000" "x")).isOperational = true := by decide

/-- C5 as amended: every error that matches none of the recognized error
classes maps to Internal (500, non-operational), as do storage
connection/initialization failures and unknown storage request errors; but a
storage known-request error whose code is not one of the four recognized
codes maps to (400, operational) with message `Database error: <code>`. -/
theorem errorHandler_internal_fallthrough :
    (∀ name msg, errorHandler (.genericError name msg)
      = ⟨500, "Internal server error", false⟩) ∧
    (∀ ec, errorHandler (.initError ec) = ⟨500, "Database connection error", false⟩) ∧
    errorHandler .unknownRequestError = ⟨500, "Unknown database error occurred", false⟩ ∧
    ∀ code target, code ∉ (["P2002", "P2025", "P2003", "P2016"] : List String) →
      errorHandler (.knownRequestError code target)
        = ⟨400, "Database error: " ++ code, true⟩ := by
  refine ⟨fun _ _ => rfl, fun _ => rfl, rfl, ?_⟩
  intro code target h
  simp only [List.mem_cons, List.not_mem_nil, or_false, not_or] at h
  obtain ⟨h1, h2, h3, h4⟩ := h
  simp only [errorHandler, beq_iff_eq, if_neg h1, if_neg h2, if_neg h3, if_neg h4]

/-- Witness for C5 (amended): a plain Error and the unrecognized storage
code P2000. -/
theorem errorHandler_internal_fallthrough_witness :
    errorHandler (.genericError "TypeError" "boom") = ⟨500, "Internal server error", false⟩ ∧
    errorHandler (.knownRequestError "P2000" "x") = ⟨400, "Database error: P2000", true⟩ :=
  ⟨errorHandler_internal_fallthrough.1 "TypeError" "boom",
   errorHandler_internal_fallthrough.2.2.2 "P2000" "x" (by decide)⟩

theorem char_toNat_ofNat_valid (n : Nat) (h : n.isValidChar) : (Char.ofNat n).toNat = n := by
  simp [Char.ofNat, dif_pos h, Char.ofNatAux, Char.toNat, UInt32.toNat]

theorem char_toLower_idem (c : Char) : (c.toLower).toLower = c.toLower := by
  unfold Char.toLower
  by_cases h : c.toNat ≥ 65 ∧ c.toNat ≤ 90
  · rw [if_pos h]
    have hv : (c.toNat + 32).isValidChar := by
      left
      omega
    have ht : (Char.ofNat (c.toNat + 32)).toNat = c.toNat + 32 :=
      char_toNat_ofNat_valid _ hv
    rw [ht, if_neg (by omega)]
  · rw [if_neg h, if_neg h]

theorem strToLower_idem (s : String) : strToLower (strToLower s) = strToLower s := by
  simp only [strToLower, List.map_map, Function.comp_def, char_toLower_idem]

/-! ## Claim C9: the duplicate-email check precedes the empty-name check -/

/-- C9: in `UserService.createUser`, a well-formed email that is already
registered wins over an empty (after trimming) name: the call fails with the
409 Conflict, not with the empty-name validation error; and only the
email-format check runs before the conflict check (a malformed email fails
with the 400 format error regardless of any duplicate). -/
theorem createUser_conflict_precedes_name_check :
    (∀ (db : DB) (freshId : String) (now : Nat) (data : CreateUserDto) (u : User),
      emailRegexTest data.email = true →
      UserRepository.findByEmail db data.email = some u →
      strTrim data.name = "" →
      UserService.createUser db freshId now data
        = .error (.apiError 409 "Email already exists" true)) ∧
    (∀ (db : DB) (freshId : String) (now : Nat) (data : CreateUserDto),
      emailRegexTest data.email = false →
      UserService.createUser db freshId now data
        = .error (.apiError 400 "Invalid email format" true)) := by
  constructor
  · intro db freshId now data u hreg hfind _
    simp [UserService.createUser, hreg, hfind]
  · intro db freshId now data hreg
    simp [UserService.createUser, hreg]

/-- Witness for C9: `a@b.co` already registered, name all whitespace. -/
theorem createUser_conflict_precedes_name_check_witness :
    UserService.createUser ⟨[⟨"u1", "a@b.co", "A", 0⟩], [], []⟩ "f" 7
        ⟨none, "a@b.co", "  "⟩
      = .error (.apiError 409 "Email already exists" true) ∧
    UserService.createUser emptyDB "f" 7 ⟨none, "not-an-email", "Bob"⟩
      = .error (.apiError 400 "Invalid email format" true) :=
  ⟨createUser_conflict_precedes_name_check.1 ⟨[⟨"u1", "a@b.co", "A", 0⟩], [], []⟩ "f" 7
      ⟨none, "a@b.co", "  "⟩ ⟨"u1", "a@b.co", "A", 0⟩ (by decide) rfl (by decide),
   createUser_conflict_precedes_name_check.2 emptyDB "f" 7 ⟨none, "not-an-email", "Bob"⟩
      (by decide)⟩

/-! ## Claim C6: duplicate email is a Conflict under case-insensitive comparison -/

/-- C6: once `createAccount` (the POST /users pipeline: Joi normalization
followed by `UserService.createUser`) has succeeded for an email, a second
`createAccount` with any casing variant of that email (same letters up to
case, i.e. equal after trim + lowercase) and a valid name fails with the
409 Conflict `Email already exists`: two creations with the same email in
any casing yield exactly one success and one Conflict. -/
theorem createAccount_duplicate_email_conflict :
    ∀ (db : DB) (f1 : String) (t1 : Nat) (e1 nm1 : String) (u : User) (db' : DB)
      (f2 : String) (t2 : Nat) (e2 nm2 : String),
      createAccount db f1 t1 e1 nm1 = .ok (u, db') →
      strToLower (strTrim e2) = strToLower (strTrim e1) →
      strTrim nm2 ≠ "" →
      createAccount db' f2 t2 e2 nm2 = .error (.apiError 409 "Email already exists" true) := by
  intro db f1 t1 e1 nm1 u db' f2 t2 e2 nm2 hok hvariant hnm2
  simp only [createAccount, UserService.createUser] at hok
  split at hok
  · exact Except.noConfusion hok
  · split at hok
    · exact Except.noConfusion hok
    · rename_i hreg
      split at hok
      · exact Except.noConfusion hok
      · rename_i hfind
        split at hok
        · exact Except.noConfusion hok
        · simp only [UserRepository.create] at hok
          split at hok
          · exact Except.noConfusion hok
          · split at hok
            · exact Except.noConfusion hok
            · simp only [Except.map] at hok
              injection Except.ok.inj hok with hu hdb
              subst hdb
              have hreg' : emailRegexTest (strToLower (strTrim e1)) = true := by
                simpa using hreg
              have hid : strToLower (strToLower (strTrim e1)) = strToLower (strTrim e1) :=
                strToLower_idem _
              have hnm2f : (strTrim nm2 == "") = false := beq_eq_false_iff_ne.mpr hnm2
              have hfind0 : db.users.find? (fun v => v.email == strToLower (strTrim e1)) = none :=
                hfind
              have hfind2 : UserRepository.findByEmail
                  ⟨db.users ++ [⟨f1, strToLower (strToLower (strTrim e1)),
                    strTrim (strTrim nm1), t1⟩], db.films, db.purchases⟩
                  (strToLower (strTrim e1))
                  = some ⟨f1, strToLower (strToLower (strTrim e1)), strTrim (strTrim nm1), t1⟩ := by
                simp only [UserRepository.findByEmail, List.find?_append]
                rw [hfind0]
                simp [hid]
              simp [createAccount, UserService.createUser, hnm2f, hvariant, hreg', hfind2]

/-- Witness for C6: register `A@B.co`, then attempt `a@B.CO`. -/
theorem createAccount_duplicate_email_conflict_witness :
    createAccount ⟨[⟨"id1", "a@b.co", "Bob", 0⟩], [], []⟩ "id2" 5 "a@B.CO" "Eve"
      = .error (.apiError 409 "Email already exists" true) :=
  createAccount_duplicate_email_conflict emptyDB "id1" 0 "A@B.co" " Bob "
    ⟨"id1", "a@b.co", "Bob", 0⟩ ⟨[⟨"id1", "a@b.co", "Bob", 0⟩], [], []⟩
    "id2" 5 "a@B.CO" "Eve" (by rfl) (by decide) (by decide)

/-! ## Ordering lemmas for the insertion models of the SQL ORDER BY scans -/

theorem insertPurchaseAsc_perm (p : Purchase) (l : List Purchase) :
    List.Perm (insertPurchaseAsc p l) (p :: l) := by
  induction l with
  | nil => exact List.Perm.refl _
  | cons q qs ih =>
    simp only [insertPurchaseAsc]
    split
    · exact List.Perm.refl _
    · exact List.Perm.trans (List.Perm.cons q ih) (List.Perm.swap p q qs)

theorem sortPurchasesAsc_perm (l : List Purchase) : List.Perm (sortPurchasesAsc l) l := by
  induction l with
  | nil => exact List.Perm.refl _
  | cons p ps ih =>
    exact List.Perm.trans (insertPurchaseAsc_perm p (sortPurchasesAsc ps)) (List.Perm.cons p ih)

theorem insertPurchaseAsc_pairwise (p : Purchase) (l : List Purchase)
    (h : List.Pairwise (fun a b => a.createdAt ≤ b.createdAt) l) :
    List.Pairwise (fun a b => a.createdAt ≤ b.createdAt) (insertPurchaseAsc p l) := by
  induction l with
  | nil => exact List.pairwise_singleton _ _
  | cons q qs ih =>
    simp only [insertPurchaseAsc]
    rcases h with _ | ⟨hq, hqs⟩
    split
    · rename_i hpq
      exact List.Pairwise.cons
        (fun x hx => by
          rcases List.mem_cons.mp hx with rfl | hx'
          · exact hpq
          · exact Nat.le_trans hpq (hq x hx'))
        (List.Pairwise.cons hq hqs)
    · rename_i hpq
      have hqp : q.createdAt ≤ p.createdAt := Nat.le_of_not_le hpq
      exact List.Pairwise.cons
        (fun x hx => by
          rcases List.mem_cons.mp ((insertPurchaseAsc_perm p qs).mem_iff.mp hx) with rfl | hx'
          · exact hqp
          · exact hq x hx')
        (ih hqs)

theorem sortPurchasesAsc_pairwise (l : List Purchase) :
    List.Pairwise (fun a b => a.createdAt ≤ b.createdAt) (sortPurchasesAsc l) := by
  induction l with
  | nil => exact List.Pairwise.nil
  | cons p ps ih => exact insertPurchaseAsc_pairwise p (sortPurchasesAsc ps) ih

theorem foldl_add_map_sum (f : Purchase → Int) :
    ∀ (l : List Purchase) (init : Int),
      l.foldl (fun s p => s + f p) init = init + (l.map f).sum := by
  intro l
  induction l with
  | nil => intro init; simp
  | cons p ps ih =>
    intro init
    simp only [List.foldl_cons, List.map_cons, List.sum_cons, ih (init + f p)]
    ring

theorem sorted_le_getLast (l : List Purchase) (h : l ≠ [])
    (hs : List.Pairwise (fun a b => a.createdAt ≤ b.createdAt) l) :
    ∀ q ∈ l, q.createdAt ≤ (l.getLast h).createdAt := by
  induction l with
  | nil => exact absurd rfl h
  | cons a t ih =>
    rcases hs with _ | ⟨ha, ht⟩
    intro q hq
    match t, ih with
    | [], _ =>
      rcases List.mem_singleton.mp hq with rfl
      exact Nat.le_refl _
    | b :: t', ih =>
      rw [List.getLast_cons (List.cons_ne_nil b t')]
      rcases List.mem_cons.mp hq with rfl | hq'
      · exact ha _ (List.getLast_mem (List.cons_ne_nil b t'))
      · exact ih (List.cons_ne_nil b t') ht q hq'

/-! ## Claim C7: account statistics aggregation -/

/-- C7: for an existing account, `getUserStats` returns the purchase count of
the account, the sum over its purchases of the purchased film's price at
query time, and the creation timestamps of its earliest and latest purchase
(none when it has no purchases). -/
theorem getUserStats_aggregation :
    ∀ (db : DB) (userId : String) (u : User),
      UserRepository.findById db userId = some u →
      ∃ stats, UserService.getUserStats db userId = .ok stats ∧
        stats.totalPurchases = (db.purchases.filter (fun p => p.userId == userId)).length ∧
        stats.totalSpent = ((db.purchases.filter (fun p => p.userId == userId)).map
            (fun p => filmPriceAt db p.filmId)).sum ∧
        (db.purchases.filter (fun p => p.userId == userId) = [] →
          stats.firstPurchase = none ∧ stats.lastPurchase = none) ∧
        (db.purchases.filter (fun p => p.userId == userId) ≠ [] →
          (∃ pf ∈ db.purchases.filter (fun p => p.userId == userId),
            stats.firstPurchase = some pf.createdAt ∧
            ∀ q ∈ db.purchases.filter (fun p => p.userId == userId),
              pf.createdAt ≤ q.createdAt) ∧
          (∃ pl ∈ db.purchases.filter (fun p => p.userId == userId),
            stats.lastPurchase = some pl.createdAt ∧
            ∀ q ∈ db.purchases.filter (fun p => p.userId == userId),
              q.createdAt ≤ pl.createdAt)) := by
  intro db userId u hfound
  refine ⟨UserRepository.getUserStats db userId, ?_, rfl, ?_, ?_, ?_⟩
  · simp [UserService.getUserStats, UserService.getUserById, hfound]
  · have hperm := sortPurchasesAsc_perm (db.purchases.filter (fun p => p.userId == userId))
    simp only [UserRepository.getUserStats]
    rw [foldl_add_map_sum, Int.zero_add]
    exact (hperm.map (fun p => filmPriceAt db p.filmId)).sum_eq
  · intro hempty
    simp only [UserRepository.getUserStats]
    have : sortPurchasesAsc (db.purchases.filter (fun p => p.userId == userId)) = [] := by
      rw [hempty]; rfl
    rw [this]
    exact ⟨rfl, rfl⟩
  · intro hne
    have hperm := sortPurchasesAsc_perm (db.purchases.filter (fun p => p.userId == userId))
    have hpw := sortPurchasesAsc_pairwise (db.purchases.filter (fun p => p.userId == userId))
    have hsne : sortPurchasesAsc (db.purchases.filter (fun p => p.userId == userId)) ≠ [] := by
      intro h0
      have h1 : List.Perm ([] : List Purchase)
          (db.purchases.filter (fun p => p.userId == userId)) := h0 ▸ hperm
      exact hne (List.Perm.eq_nil h1.symm)
    constructor
    · match hS : sortPurchasesAsc (db.purchases.filter (fun p => p.userId == userId)),
        hsne, hpw with
      | pf :: rest, _, hpw =>
        refine ⟨pf, ?_, ?_, ?_⟩
        · exact hperm.mem_iff.mp (hS ▸ List.mem_cons_self pf rest)
        · simp only [UserRepository.getUserStats, hS, List.head?_cons]
          rfl
        · intro q hq
          have hqS : q ∈ pf :: rest := hS ▸ hperm.mem_iff.mpr hq
          rcases List.mem_cons.mp hqS with rfl | hq'
          · exact Nat.le_refl _
          · exact (List.pairwise_cons.mp hpw).1 q hq'
    · match hS : sortPurchasesAsc (db.purchases.filter (fun p => p.userId == userId)),
        hsne, hpw with
      | S, hsne, hpw =>
        refine ⟨S.getLast hsne, ?_, ?_, ?_⟩
        · exact hperm.mem_iff.mp (hS ▸ List.getLast_mem hsne)
        · simp only [UserRepository.getUserStats, hS, List.getLast?_eq_getLast S hsne]
          rfl
        · intro q hq
          have hqS : q ∈ S := hS ▸ hperm.mem_iff.mpr hq
          exact sorted_le_getLast S hsne hpw q hqS

/-- Witness for C7: one account with one purchase of a film priced 100. -/
theorem getUserStats_aggregation_witness :
    ∃ stats, UserService.getUserStats
        ⟨[⟨"u1", "a@b.co", "A", 0⟩], [⟨"f1", "X", "d", 100, "url", "up", 0⟩],
         [⟨"p1", "u1", "f1", 50⟩]⟩ "u1" = .ok stats ∧
      stats.totalPurchases = 1 ∧ stats.totalSpent = 100 ∧
      stats.firstPurchase = some 50 ∧ stats.lastPurchase = some 50 := by
  obtain ⟨stats, hok, hcount, hsum, _, hne⟩ :=
    getUserStats_aggregation
      ⟨[⟨"u1", "a@b.co", "A", 0⟩], [⟨"f1", "X", "d", 100, "url", "up", 0⟩],
       [⟨"p1", "u1", "f1", 50⟩]⟩ "u1" ⟨"u1", "a@b.co", "A", 0⟩ rfl
  obtain ⟨⟨pf, hpfmem, hpfeq, -⟩, ⟨pl, hplmem, hpleq, -⟩⟩ := hne (by decide)
  refine ⟨stats, hok, hcount.trans (by rfl), hsum.trans (by rfl), ?_, ?_⟩
  · rcases List.mem_singleton.mp hpfmem with rfl
    exact hpfeq
  · rcases List.mem_singleton.mp hplmem with rfl
    exact hpleq

theorem insertFilmDesc_perm (f : Film) (l : List Film) :
    List.Perm (insertFilmDesc f l) (f :: l) := by
  induction l with
  | nil => exact List.Perm.refl _
  | cons g gs ih =>
    simp only [insertFilmDesc]
    split
    · exact List.Perm.refl _
    · exact List.Perm.trans (List.Perm.cons g ih) (List.Perm.swap f g gs)

theorem sortFilmsDesc_perm (l : List Film) : List.Perm (sortFilmsDesc l) l := by
  induction l with
  | nil => exact List.Perm.refl _
  | cons f fs ih =>
    exact List.Perm.trans (insertFilmDesc_perm f (sortFilmsDesc fs)) (List.Perm.cons f ih)

theorem insertFilmDesc_pairwise (f : Film) (l : List Film)
    (h : List.Pairwise (fun a b => b.createdAt ≤ a.createdAt) l) :
    List.Pairwise (fun a b => b.createdAt ≤ a.createdAt) (insertFilmDesc f l) := by
  induction l with
  | nil => exact List.pairwise_singleton _ _
  | cons g gs ih =>
    simp only [insertFilmDesc]
    rcases h with _ | ⟨hg, hgs⟩
    split
    · rename_i hgf
      exact List.Pairwise.cons
        (fun x hx => by
          rcases List.mem_cons.mp hx with rfl | hx'
          · exact hgf
          · exact Nat.le_trans (hg x hx') hgf)
        (List.Pairwise.cons hg hgs)
    · rename_i hgf
      have hfg : f.createdAt ≤ g.createdAt := Nat.le_of_not_le hgf
      exact List.Pairwise.cons
        (fun x hx => by
          rcases List.mem_cons.mp ((insertFilmDesc_perm f gs).mem_iff.mp hx) with rfl | hx'
          · exact hfg
          · exact hg x hx')
        (ih hgs)

theorem sortFilmsDesc_pairwise (l : List Film) :
    List.Pairwise (fun a b => b.createdAt ≤ a.createdAt) (sortFilmsDesc l) := by
  induction l with
  | nil => exact List.Pairwise.nil
  | cons f fs ih => exact insertFilmDesc_pairwise f (sortFilmsDesc fs) ih

theorem le_mathCeilDiv_mul (N P : Nat) (hP : 1 ≤ P) : N ≤ mathCeilDiv N P * P := by
  rcases N with _ | n
  · exact Nat.zero_le _
  · have h1 : mathCeilDiv (n + 1) P = n / P + 1 := by
      show (n + 1 + P - 1) / P = n / P + 1
      have h2 : n + 1 + P - 1 = n + P := by omega
      rw [h2, Nat.add_div_right n hP]
    rw [h1]
    exact (Nat.div_lt_iff_lt_mul hP).mp (Nat.lt_succ_self (n / P))

theorem chunks_flatten (P : Nat) :
    ∀ (n : Nat) (l : List Film), l.length ≤ n * P →
      ((List.range n).map (fun i => (l.drop (i * P)).take P)).flatten = l := by
  intro n
  induction n with
  | zero =>
    intro l hl
    have : l = [] := List.eq_nil_of_length_eq_zero (Nat.le_zero.mp (by simpa using hl))
    simp [this]
  | succ n ih =>
    intro l hl
    rw [List.range_succ_eq_map]
    simp only [List.map_cons, List.map_map, List.flatten_cons, Nat.zero_mul, List.drop_zero]
    have hcomp : ((fun i => (l.drop (i * P)).take P) ∘ Nat.succ)
        = fun i => ((l.drop P).drop (i * P)).take P := by
      funext i
      simp only [Function.comp]
      rw [List.drop_drop]
      congr 1
      rw [Nat.succ_mul]
      ring_nf
    have hsm : (n + 1) * P = n * P + P := Nat.succ_mul n P
    rw [hcomp, ih (l.drop P) (by
      rw [List.length_drop]
      omega)]
    exact List.take_append_drop P l

theorem findManyPaginated_ok (db : DB) (page limit : Int) (hp : 1 ≤ page) (hl : 1 ≤ limit) :
    FilmRepository.findManyPaginated db page limit
      = .ok ⟨((sortFilmsDesc db.films).drop ((page - 1) * limit).toNat).take limit.toNat,
             db.films.length, page, mathCeilDiv db.films.length limit.toNat⟩ := by
  have hskip : ¬ ((page - 1) * limit < 0) :=
    Int.not_lt.mpr (Int.mul_nonneg (by omega) (by omega))
  simp [FilmRepository.findManyPaginated, hskip]

/-- The film page the service returns for 1-based page `i + 1` and size `P`. -/
def pageOfFilms (db : DB) (P : Nat) (i : Nat) : List Film :=
  match FilmRepository.findManyPaginated db ((i : Int) + 1) (P : Int) with
  | .ok r => r.films
  | .error _ => []

theorem pageOfFilms_eq (db : DB) (P i : Nat) (hP : 1 ≤ P) :
    pageOfFilms db P i = ((sortFilmsDesc db.films).drop (i * P)).take P := by
  unfold pageOfFilms
  rw [findManyPaginated_ok db ((i : Int) + 1) (P : Int) (by omega) (by exact_mod_cast hP)]
  have h1 : (((i : Int) + 1 - 1) * (P : Int)).toNat = i * P := by
    have : ((i : Int) + 1 - 1) * (P : Int) = ((i * P : Nat) : Int) := by push_cast; ring
    rw [this, Int.toNat_natCast]
  have h2 : ((P : Int)).toNat = P := Int.toNat_natCast P
  rw [h1, h2]

/-! ## Claim C4: pagination contract and its defaults -/

/-- C4 counterexample: a non-positive page reaching the service is not
replaced by the defaults.  `getAllFilms(0, 20)` (page specified as 0)
computes `skip = -20`, which the storage layer rejects as an invalid query,
instead of returning the default first page; the controller likewise
forwards a negative parsed page rather than defaulting it. -/
theorem getAllFilms_nonpositive_counterexample :
    FilmService.getAllFilms emptyDB (some 0) (some 20) = .error .validationError ∧
    FilmController.getAllFilms emptyDB (some (-1)) none = .error .validationError ∧
    FilmRepository.findManyPaginated emptyDB 1 20 = .ok ⟨[], 0, 1, 0⟩ ∧
    (Except.error .validationError
      ≠ (.ok ⟨[], 0, 1, 0⟩ : Except AppError PaginatedFilms)) :=
  ⟨rfl, rfl, rfl, fun h => Except.noConfusion h⟩

/-- C4 as amended: for positive page and pageSize the paginated listing
returns the items in descending creation order with the total count and
`totalPages = ceil(total / pageSize)`; pages `1..ceil(N/P)` together yield
every item exactly once; the defaults page = 1, pageSize = 20 apply when a
parameter is unspecified (TS default parameter), and at the controller also
when the query string parses to NaN or 0 (the JS `||` fallback) — but a
negative value is passed through and makes the storage query fail instead
of falling back to the defaults. -/
theorem findManyPaginated_pagination_spec :
    (∀ (db : DB) (page limit : Int), 1 ≤ page → 1 ≤ limit →
      ∃ r, FilmRepository.findManyPaginated db page limit = .ok r ∧
        r.total = db.films.length ∧
        r.totalPages = mathCeilDiv db.films.length limit.toNat ∧
        List.Pairwise (fun a b => b.createdAt ≤ a.createdAt) r.films) ∧
    (∀ (db : DB) (P : Nat), 1 ≤ P →
      List.Perm (((List.range (mathCeilDiv db.films.length P)).map (pageOfFilms db P)).flatten)
        db.films) ∧
    (∀ db : DB, FilmService.getAllFilms db none none = FilmRepository.findManyPaginated db 1 20) ∧
    (∀ db : DB,
      FilmController.getAllFilms db none none = FilmRepository.findManyPaginated db 1 20 ∧
      FilmController.getAllFilms db (some 0) (some 0)
        = FilmRepository.findManyPaginated db 1 20) := by
  refine ⟨?_, ?_, fun _ => rfl, fun _ => ⟨rfl, rfl⟩⟩
  · intro db page limit hp hl
    refine ⟨_, findManyPaginated_ok db page limit hp hl, rfl, rfl, ?_⟩
    exact List.Pairwise.sublist ((List.take_sublist _ _).trans (List.drop_sublist _ _))
      (sortFilmsDesc_pairwise db.films)
  · intro db P hP
    have hmap : (List.range (mathCeilDiv db.films.length P)).map (pageOfFilms db P)
        = (List.range (mathCeilDiv db.films.length P)).map
            (fun i => ((sortFilmsDesc db.films).drop (i * P)).take P) :=
      List.map_congr_left (fun i _ => pageOfFilms_eq db P i hP)
    rw [hmap]
    have hlen : (sortFilmsDesc db.films).length ≤ mathCeilDiv db.films.length P * P := by
      rw [(sortFilmsDesc_perm db.films).length_eq]
      exact le_mathCeilDiv_mul db.films.length P hP
    rw [chunks_flatten P (mathCeilDiv db.films.length P) (sortFilmsDesc db.films) hlen]
    exact sortFilmsDesc_perm db.films

/-- Witness for C4 (amended): two films, page size 1 — two pages that
together enumerate both films. -/
theorem findManyPaginated_pagination_spec_witness :
    (∃ r, FilmRepository.findManyPaginated
        ⟨[], [⟨"f1", "A", "d", 5, "u", "x", 10⟩, ⟨"f2", "B", "d", 7, "u", "x", 20⟩], []⟩ 1 20
        = .ok r ∧ r.total = 2 ∧ r.totalPages = 1 ∧
        List.Pairwise (fun a b => b.createdAt ≤ a.createdAt) r.films) ∧
    List.Perm (((List.range (mathCeilDiv 2 1)).map (pageOfFilms
        ⟨[], [⟨"f1", "A", "d", 5, "u", "x", 10⟩, ⟨"f2", "B", "d", 7, "u", "x", 20⟩], []⟩ 1)).flatten)
      [⟨"f1", "A", "d", 5, "u", "x", 10⟩, ⟨"f2", "B", "d", 7, "u", "x", 20⟩] := by
  constructor
  · obtain ⟨r, hok, htot, hpages, hsorted⟩ := findManyPaginated_pagination_spec.1
      ⟨[], [⟨"f1", "A", "d", 5, "u", "x", 10⟩, ⟨"f2", "B", "d", 7, "u", "x", 20⟩], []⟩ 1 20
      (by decide) (by decide)
    exact ⟨r, hok, htot.trans (by rfl), hpages.trans (by rfl), hsorted⟩
  · exact findManyPaginated_pagination_spec.2.1
      ⟨[], [⟨"f1", "A", "d", 5, "u", "x", 10⟩, ⟨"f2", "B", "d", 7, "u", "x", 20⟩], []⟩ 1
      (by decide)

/-! ## Claim C2: the delete guard of the catalog service -/

/-- C2 counterexample: deleting a film that has a purchase fails with an
`ApiError` of status 400 ("Cannot delete film with existing purchases"), not
with a 409 Conflict as claimed (the repository's own service test expects
this 400). -/
theorem deleteFilm_status_counterexample :
    FilmService.deleteFilm
        ⟨[⟨"u1", "a@b.co", "A", 0⟩], [⟨"f1", "X", "d", 100, "u", "up", 0⟩],
         [⟨"p1", "u1", "f1", 5⟩]⟩ "f1"
      = .error (.apiError 400 "Cannot delete film with existing purchases" true) ∧
    (400 : Nat) ≠ 409 :=
  ⟨rfl, by decide⟩

/-- C2 as amended: `deleteFilm` fails with the 404 NotFound when the film is
absent and with a 400 `ApiError` ("Cannot delete film with existing
purchases") — not a 409 Conflict — when it has at least one purchase; and it
succeeds exactly when `getFilmPurchaseStats` reports zero purchases. -/
theorem deleteFilm_guard_spec :
    (∀ (db : DB) (id : String), FilmRepository.findById db id = none →
      FilmService.deleteFilm db id = .error (.apiError 404 "Film not found" true)) ∧
    (∀ (db : DB) (id : String) (f : Film), FilmRepository.findById db id = some f →
      0 < PurchaseRepository.getFilmPurchaseCount db id →
      FilmService.deleteFilm db id
        = .error (.apiError 400 "Cannot delete film with existing purchases" true)) ∧
    (∀ (db : DB) (id : String),
      (∃ db', FilmService.deleteFilm db id = .ok ((), db')) ↔
        FilmService.getFilmPurchaseStats db id = .ok ⟨id, 0⟩) := by
  refine ⟨?_, ?_, ?_⟩
  · intro db id h
    simp [FilmService.deleteFilm, FilmService.getFilmById, h]
  · intro db id f hf hcount
    simp [FilmService.deleteFilm, FilmService.getFilmById, hf, hcount, Nat.not_lt.mpr hcount]
  · intro db id
    constructor
    · rintro ⟨db', hdel⟩
      cases hfind : FilmRepository.findById db id with
      | none => simp [FilmService.deleteFilm, FilmService.getFilmById, hfind] at hdel
      | some f =>
        by_cases hc : 0 < PurchaseRepository.getFilmPurchaseCount db id
        · simp [FilmService.deleteFilm, FilmService.getFilmById, hfind, hc] at hdel
        · have hzero : PurchaseRepository.getFilmPurchaseCount db id = 0 :=
            Nat.eq_zero_of_not_pos hc
          simp [FilmService.getFilmPurchaseStats, FilmService.getFilmById, hfind, hzero]
    · intro hstats
      simp only [FilmService.getFilmPurchaseStats, FilmService.getFilmById] at hstats
      cases hfind : FilmRepository.findById db id with
      | none => rw [hfind] at hstats; exact Except.noConfusion hstats
      | some f =>
        rw [hfind] at hstats
        simp only [Except.ok.injEq, FilmStats.mk.injEq] at hstats
        have hzero : PurchaseRepository.getFilmPurchaseCount db id = 0 := hstats.2
        have hfind' : db.films.find? (fun g => g.id == id) = some f := hfind
        have hpred : (f.id == id) = true := by
          have h := List.find?_some hfind'
          simpa using h
        have hanyf : db.films.any (fun g => g.id == id) = true :=
          List.any_eq_true.mpr ⟨f, List.mem_of_find?_eq_some hfind', hpred⟩
        have hnil : db.purchases.filter (fun p => p.filmId == id) = [] :=
          List.length_eq_zero.mp hzero
        have hanyp : db.purchases.any (fun p => p.filmId == id) = false := by
          rw [List.any_eq_false]
          intro p hp hpred
          have : p ∈ db.purchases.filter (fun q => q.filmId == id) :=
            List.mem_filter.mpr ⟨hp, hpred⟩
          rw [hnil] at this
          exact List.not_mem_nil p this
      
        refine ⟨{ db with films := db.films.filter (fun g => g.id != id) }, ?_⟩
        simp [FilmService.deleteFilm, FilmService.getFilmById, hfind, hzero,
          FilmRepository.delete, hanyf, hanyp, Except.map]

/-- Witness for C2 (amended): the 404 case on an empty store and the 400
guard on a film with one purchase. -/
theorem deleteFilm_guard_spec_witness :
    FilmService.deleteFilm emptyDB "f1" = .error (.apiError 404 "Film not found" true) ∧
    FilmService.deleteFilm
        ⟨[⟨"u1", "a@b.co", "A", 0⟩], [⟨"f1", "X", "d", 100, "u", "up", 0⟩],
         [⟨"p1", "u1", "f1", 5⟩]⟩ "f1"
      = .error (.apiError 400 "Cannot delete film with existing purchases" true) :=
  ⟨deleteFilm_guard_spec.1 emptyDB "f1" rfl,
   deleteFilm_guard_spec.2.1
     ⟨[⟨"u1", "a@b.co", "A", 0⟩], [⟨"f1", "X", "d", 100, "u", "up", 0⟩],
      [⟨"p1", "u1", "f1", 5⟩]⟩ "f1" ⟨"f1", "X", "d", 100, "u", "up", 0⟩ rfl (by decide)⟩

/-! ## Claim C8: auto-provisioning of a missing account on purchase -/

/-- C8 counterexample: when another account already uses the synthesized
placeholder address (`user-bob@polaroid.com`), the auto-provisioning insert
violates the unique email constraint and the purchase fails with the P2002
storage error (rendered as a 409), instead of succeeding as claimed. -/
theorem purchaseFilm_autoprovision_counterexample :
    FilmService.purchaseFilm
        ⟨[⟨"u1", "user-bob@polaroid.com", "Eve", 0⟩],
         [⟨"f1", "X", "d", 100, "u", "up", 0⟩], []⟩ "p1" 7 "bob" "f1"
      = .error (.knownRequestError "P2002" "email") ∧
    errorHandler (.knownRequestError "P2002" "email")
      = ⟨409, "Duplicate value for email", true⟩ :=
  ⟨rfl, rfl⟩

/-- C8 as amended: `purchase` called with an existing item and a non-existent
accountId auto-provisions an Account whose id is the given accountId, with
placeholder email `user-<id>@polaroid.com` and name `User <id>`, and then
succeeds with the created Purchase — provided no existing account already
uses that synthesized placeholder email (otherwise the storage unique-email
constraint rejects the auto-provision and the purchase fails); the remaining
hypotheses (no purchase row references the absent account, the generated
purchase id is fresh) are the storage invariants the foreign-key and
primary-key constraints maintain. -/
theorem purchaseFilm_autoprovision :
    ∀ (db : DB) (pid : String) (now : Nat) (userId filmId : String) (f : Film),
      FilmRepository.findById db filmId = some f →
      UserRepository.findById db userId = none →
      (∀ v ∈ db.users, v.email ≠ "user-" ++ userId ++ "@polaroid.com") →
      (∀ p ∈ db.purchases, p.userId ≠ userId) →
      (∀ q ∈ db.purchases, q.id ≠ pid) →
      FilmService.purchaseFilm db pid now userId filmId
        = .ok (⟨pid, userId, filmId, now⟩,
            ⟨db.users ++ [⟨userId, "user-" ++ userId ++ "@polaroid.com", "User " ++ userId, now⟩],
             db.films,
             db.purchases ++ [⟨pid, userId, filmId, now⟩]⟩) := by
  intro db pid now userId filmId f hfilm huser hemail hnopurch hnopid
  have hanyid : db.users.any (fun v => v.id == userId) = false := by
    rw [List.any_eq_false]
    intro v hv hpred
    have : UserRepository.findById db userId ≠ none := by
      simp only [UserRepository.findById, ne_eq, List.find?_eq_none, not_forall]
      exact ⟨v, hv, by simpa using hpred⟩
    exact this huser
  have hanyemail : db.users.any
      (fun v => v.email == "user-" ++ userId ++ "@polaroid.com") = false := by
    rw [List.any_eq_false]
    intro v hv hpred
    exact hemail v hv (by simpa using hpred)
  have hanypair : db.purchases.any
      (fun q => q.userId == userId && q.filmId == filmId) = false := by
    rw [List.any_eq_false]
    intro q hq hpred
    exact hnopurch q hq (by
      have := (Bool.and_eq_true _ _).mp hpred
      simpa using this.1)
  have hanypid : db.purchases.any (fun q => q.id == pid) = false := by
    rw [List.any_eq_false]
    intro q hq hpred
    exact hnopid q hq (by simpa using hpred)
  have hpairfind : db.purchases.find?
      (fun q => q.userId == userId && q.filmId == filmId) = none := by
    rw [List.find?_eq_none]
    intro q hq hpred
    exact hnopurch q hq (by
      have := (Bool.and_eq_true _ _).mp hpred
      simpa using this.1)
  have hfind' : db.films.find? (fun g => g.id == filmId) = some f := hfilm
  have hfpred : (f.id == filmId) = true := by
    have h := List.find?_some hfind'
    simpa using h
  have hanyfilm : db.films.any (fun g => g.id == filmId) = true :=
    List.any_eq_true.mpr ⟨f, List.mem_of_find?_eq_some hfind', hfpred⟩
  have hanyid2 : (db.users ++ [(⟨userId, "user-" ++ userId ++ "@polaroid.com",
      "User " ++ userId, now⟩ : User)]).any (fun v => v.id == userId) = true := by
    rw [List.any_eq_true]
    exact ⟨⟨userId, "user-" ++ userId ++ "@polaroid.com", "User " ++ userId, now⟩,
      List.mem_append_right _ (List.mem_singleton_self _), by simp⟩
  simp only [FilmService.purchaseFilm, FilmService.getFilmById, hfilm,
    huser, UserRepository.create, hanyid, hanyemail, Except.map,
    PurchaseRepository.checkIfPurchased, PurchaseRepository.findByUserAndFilm, hpairfind,
    PurchaseRepository.createPurchase, hanypid, hanypair, hanyid2, hanyfilm,
    Option.isSome_none, Bool.not_true, Bool.not_false, Bool.false_eq_true, Bool.true_eq_false,
    if_true, if_false, ite_true, ite_false]

/-- Witness for C8 (amended): empty user relation, one film. -/
theorem purchaseFilm_autoprovision_witness :
    FilmService.purchaseFilm ⟨[], [⟨"f1", "X", "d", 100, "u", "up", 0⟩], []⟩ "p1" 7 "bob" "f1"
      = .ok (⟨"p1", "bob", "f1", 7⟩,
          ⟨[⟨"bob", "user-bob@polaroid.com", "User bob", 7⟩],
           [⟨"f1", "X", "d", 100, "u", "up", 0⟩],
           [⟨"p1", "bob", "f1", 7⟩]⟩) :=
  purchaseFilm_autoprovision ⟨[], [⟨"f1", "X", "d", 100, "u", "up", 0⟩], []⟩ "p1" 7 "bob" "f1"
    ⟨"f1", "X", "d", 100, "u", "up", 0⟩ rfl rfl (by simp) (by simp) (by simp)

/-! ## Transition-system lemmas for the reachability invariant -/

/-- `List.find?_some` with the predicate explicit, for easier instantiation. -/
theorem find?_pred {α : Type} (p : α → Bool) {l : List α} {a : α}
    (h : List.find? p l = some a) : p a = true :=
  List.find?_some h

theorem purchaseFilm_ok_spec (db : DB) (pid : String) (now : Nat) (uid fid : String)
    (p : Purchase) (db' : DB)
    (hok : FilmService.purchaseFilm db pid now uid fid = .ok (p, db')) :
    p = ⟨pid, uid, fid, now⟩ ∧
    db'.films = db.films ∧
    db'.purchases = db.purchases ++ [p] ∧
    (∃ f ∈ db.films, f.id = fid) ∧
    (∃ u ∈ db'.users, u.id = uid) ∧
    (∀ q ∈ db.purchases, ¬ samePair q p) := by
  simp only [FilmService.purchaseFilm, FilmService.getFilmById] at hok
  cases hfilm : FilmRepository.findById db fid with
  | none => rw [hfilm] at hok; exact Except.noConfusion hok
  | some f =>
    rw [hfilm] at hok
    have hfilm' : db.films.find? (fun g => g.id == fid) = some f := hfilm
    have hfilmex : ∃ g ∈ db.films, g.id = fid :=
      ⟨f, List.mem_of_find?_eq_some hfilm',
        by simpa using find?_pred (fun (g : Film) => g.id == fid) hfilm'⟩
    cases huser : UserRepository.findById db uid with
    | some u =>
      rw [huser] at hok
      have huser' : db.users.find? (fun v => v.id == uid) = some u := huser
      have huid : u.id = uid := by
        simpa using find?_pred (fun (v : User) => v.id == uid) huser'
      simp only at hok
      by_cases hch : PurchaseRepository.checkIfPurchased db u.id fid
      · rw [if_pos hch] at hok; exact Except.noConfusion hok
      · rw [if_neg hch] at hok
        simp only [PurchaseRepository.createPurchase] at hok
        split at hok
        · exact Except.noConfusion hok
        · split at hok
          · exact Except.noConfusion hok
          · split at hok
            · exact Except.noConfusion hok
            · split at hok
              · exact Except.noConfusion hok
              · rename_i hpid hpair hfk1 hfk2
                injection Except.ok.inj hok with hp hdb
                subst hdb
                refine ⟨by rw [← hp, huid], rfl, by rw [← hp, huid], hfilmex,
                  ⟨u, List.mem_of_find?_eq_some huser', huid⟩, ?_⟩
                intro q hq hsame
                rw [← hp] at hsame
                have hany : db.purchases.any
                    (fun r => r.userId == u.id && r.filmId == fid) = true :=
                  List.any_eq_true.mpr ⟨q, hq, by
                    rcases hsame with ⟨h1, h2⟩
                    simp [h1, h2]⟩
                exact hpair hany
    | none =>
      rw [huser] at hok
      simp only at hok
      cases hcr : UserRepository.create db
          ⟨uid, "user-" ++ uid ++ "@polaroid.com", "User " ++ uid, now⟩ with
      | error e => rw [hcr] at hok; exact Except.noConfusion hok
      | ok dbU =>
        rw [hcr] at hok
        simp only [Except.map] at hok
        simp only [UserRepository.create] at hcr
        split at hcr
        · exact Except.noConfusion hcr
        · split at hcr
          · exact Except.noConfusion hcr
          · have hdbU := Except.ok.inj hcr
            by_cases hch : PurchaseRepository.checkIfPurchased dbU uid fid
            · rw [if_pos hch] at hok; exact Except.noConfusion hok
            · rw [if_neg hch] at hok
              simp only [PurchaseRepository.createPurchase] at hok
              split at hok
              · exact Except.noConfusion hok
              · split at hok
                · exact Except.noConfusion hok
                · split at hok
                  · exact Except.noConfusion hok
                  · split at hok
                    · exact Except.noConfusion hok
                    · rename_i hpid hpair hfk1 hfk2
                      injection Except.ok.inj hok with hp hdb
                      subst hdb
                      refine ⟨hp.symm, by rw [← hdbU], by rw [← hp, ← hdbU], hfilmex, ?_, ?_⟩
                      · refine ⟨⟨uid, "user-" ++ uid ++ "@polaroid.com", "User " ++ uid, now⟩,
                          ?_, rfl⟩
                        rw [← hdbU]
                        exact List.mem_append_right _ (List.mem_singleton_self _)
                      · intro q hq hsame
                        rw [← hp] at hsame
                        have hqU : q ∈ dbU.purchases := by rw [← hdbU]; exact hq
                        have hany : dbU.purchases.any
                            (fun r => r.userId == uid && r.filmId == fid) = true :=
                          List.any_eq_true.mpr ⟨q, hqU, by
                            rcases hsame with ⟨h1, h2⟩
                            simp [h1, h2]⟩
                        exact hpair hany

theorem except_map_ok {α β : Type} (f : α → β) (r : Except AppError α) (b : β)
    (h : r.map f = .ok b) : ∃ a, r = .ok a ∧ f a = b := by
  cases r with
  | error e => exact Except.noConfusion h
  | ok a => exact ⟨a, rfl, Except.ok.inj h⟩

theorem createUser_ok_purchases (db : DB) (fid : String) (n : Nat) (d : CreateUserDto)
    (x : User) (db' : DB) (hok : UserService.createUser db fid n d = .ok (x, db')) :
    db'.purchases = db.purchases := by
  simp only [UserService.createUser] at hok
  split at hok
  · exact Except.noConfusion hok
  · split at hok
    · exact Except.noConfusion hok
    · split at hok
      · exact Except.noConfusion hok
      · obtain ⟨dbU, hcr, hmap⟩ := except_map_ok _ _ _ hok
        simp only [UserRepository.create] at hcr
        split at hcr
        · exact Except.noConfusion hcr
        · split at hcr
          · exact Except.noConfusion hcr
          · have hdbU := Except.ok.inj hcr
            injection hmap with hx hdb
            rw [← hdb, ← hdbU]

theorem updateUser_ok_purchases (db : DB) (id : String) (d : UpdateUserDto)
    (x : User) (db' : DB) (hok : UserService.updateUser db id d = .ok (x, db')) :
    db'.purchases = db.purchases := by
  simp only [UserService.updateUser, UserService.getUserById] at hok
  split at hok
  · exact Except.noConfusion hok
  · split at hok
    · exact Except.noConfusion hok
    · split at hok
      · exact Except.noConfusion hok
      · split at hok
        · exact Except.noConfusion hok
        · simp only [UserRepository.update] at hok
          split at hok
          · exact Except.noConfusion hok
          · split at hok
            · exact Except.noConfusion hok
            · injection Except.ok.inj hok with hx hdb
              rw [← hdb]

theorem deleteUser_ok_purchases (db : DB) (id : String)
    (x : Unit) (db' : DB) (hok : UserService.deleteUser db id = .ok (x, db')) :
    db'.purchases = db.purchases := by
  simp only [UserService.deleteUser, UserService.getUserById] at hok
  split at hok
  · exact Except.noConfusion hok
  · obtain ⟨dbU, hcr, hmap⟩ := except_map_ok _ _ _ hok
    simp only [UserRepository.delete] at hcr
    split at hcr
    · exact Except.noConfusion hcr
    · split at hcr
      · exact Except.noConfusion hcr
      · have hdbU := Except.ok.inj hcr
        injection hmap with hx hdb
        rw [← hdb, ← hdbU]

theorem createFilm_ok_purchases (db : DB) (fid : String) (n : Nat) (d : CreateFilmDto)
    (x : Film) (db' : DB) (hok : FilmService.createFilm db fid n d = .ok (x, db')) :
    db'.purchases = db.purchases := by
  simp only [FilmService.createFilm] at hok
  split at hok
  · exact Except.noConfusion hok
  · split at hok
    · exact Except.noConfusion hok
    · obtain ⟨dbU, hcr, hmap⟩ := except_map_ok _ _ _ hok
      simp only [FilmRepository.create] at hcr
      split at hcr
      · exact Except.noConfusion hcr
      · have hdbU := Except.ok.inj hcr
        injection hmap with hx hdb
        rw [← hdb, ← hdbU]

theorem updateFilm_ok_purchases (db : DB) (id : String) (d : FilmUpdateData)
    (x : Film) (db' : DB) (hok : FilmService.updateFilm db id d = .ok (x, db')) :
    db'.purchases = db.purchases := by
  simp only [FilmService.updateFilm, FilmService.getFilmById] at hok
  split at hok
  · exact Except.noConfusion hok
  · split at hok
    · exact Except.noConfusion hok
    · simp only [FilmRepository.update] at hok
      split at hok
      · exact Except.noConfusion hok
      · injection Except.ok.inj hok with hx hdb
        rw [← hdb]

theorem deleteFilm_ok_purchases (db : DB) (id : String)
    (x : Unit) (db' : DB) (hok : FilmService.deleteFilm db id = .ok (x, db')) :
    db'.purchases = db.purchases := by
  simp only [FilmService.deleteFilm, FilmService.getFilmById] at hok
  split at hok
  · exact Except.noConfusion hok
  · split at hok
    · exact Except.noConfusion hok
    · obtain ⟨dbU, hcr, hmap⟩ := except_map_ok _ _ _ hok
      simp only [FilmRepository.delete] at hcr
      split at hcr
      · exact Except.noConfusion hcr
      · split at hcr
        · exact Except.noConfusion hcr
        · have hdbU := Except.ok.inj hcr
          injection hmap with hx hdb
          rw [← hdb, ← hdbU]

theorem applyOp_purchases (db : DB) (op : Op) :
    (applyOp db op).purchases = db.purchases ∨
    ∃ p, (applyOp db op).purchases = db.purchases ++ [p] ∧
      ∀ q ∈ db.purchases, ¬ samePair q p := by
  cases op with
  | createUser fid n d =>
    cases hok : UserService.createUser db fid n d with
    | error e => left; simp [applyOp, stateAfter, hok]
    | ok v =>
      obtain ⟨x, db'⟩ := v
      left
      simpa [applyOp, stateAfter, hok] using createUser_ok_purchases db fid n d x db' hok
  | updateUser id d =>
    cases hok : UserService.updateUser db id d with
    | error e => left; simp [applyOp, stateAfter, hok]
    | ok v =>
      obtain ⟨x, db'⟩ := v
      left
      simpa [applyOp, stateAfter, hok] using updateUser_ok_purchases db id d x db' hok
  | deleteUser id =>
    cases hok : UserService.deleteUser db id with
    | error e => left; simp [applyOp, stateAfter, hok]
    | ok v =>
      obtain ⟨x, db'⟩ := v
      left
      simpa [applyOp, stateAfter, hok] using deleteUser_ok_purchases db id x db' hok
  | createFilm fid n d =>
    cases hok : FilmService.createFilm db fid n d with
    | error e => left; simp [applyOp, stateAfter, hok]
    | ok v =>
      obtain ⟨x, db'⟩ := v
      left
      simpa [applyOp, stateAfter, hok] using createFilm_ok_purchases db fid n d x db' hok
  | updateFilm id d =>
    cases hok : FilmService.updateFilm db id d with
    | error e => left; simp [applyOp, stateAfter, hok]
    | ok v =>
      obtain ⟨x, db'⟩ := v
      left
      simpa [applyOp, stateAfter, hok] using updateFilm_ok_purchases db id d x db' hok
  | deleteFilm id =>
    cases hok : FilmService.deleteFilm db id with
    | error e => left; simp [applyOp, stateAfter, hok]
    | ok v =>
      obtain ⟨x, db'⟩ := v
      left
      simpa [applyOp, stateAfter, hok] using deleteFilm_ok_purchases db id x db' hok
  | purchaseFilm pid n u f =>
    cases hok : FilmService.purchaseFilm db pid n u f with
    | error e => left; simp [applyOp, stateAfter, hok]
    | ok v =>
      obtain ⟨p, db'⟩ := v
      obtain ⟨-, -, hpur, -, -, hguard⟩ := purchaseFilm_ok_spec db pid n u f p db' hok
      right
      exact ⟨p, by simpa [applyOp, stateAfter, hok] using hpur, hguard⟩

theorem applyOp_pairsUnique (db : DB) (op : Op) (h : PairsUnique db) :
    PairsUnique (applyOp db op) := by
  rcases applyOp_purchases db op with heq | ⟨p, heq, hguard⟩
  · unfold PairsUnique
    rw [heq]
    exact h
  · unfold PairsUnique
    rw [heq]
    rw [List.pairwise_append]
    exact ⟨h, List.pairwise_singleton _ _,
      fun a ha b hb => by
        rcases List.mem_singleton.mp hb with rfl
        exact hguard a ha⟩

theorem runOps_pairsUnique_aux :
    ∀ (ops : List Op) (db : DB), PairsUnique db → PairsUnique (ops.foldl applyOp db) := by
  intro ops
  induction ops with
  | nil => intro db h; exact h
  | cons op ops ih =>
    intro db h
    exact ih (applyOp db op) (applyOp_pairsUnique db op h)

theorem purchaseFilm_conflict_core (db : DB) (pid : String) (now : Nat) (uid fid : String)
    (hf : ∃ f ∈ db.films, f.id = fid)
    (hu : ∃ u ∈ db.users, u.id = uid)
    (hp : ∃ q ∈ db.purchases, q.userId = uid ∧ q.filmId = fid) :
    FilmService.purchaseFilm db pid now uid fid
      = .error (.apiError 409 "Film already purchased by this user" true) := by
  obtain ⟨f, hfmem, hfid⟩ := hf
  obtain ⟨u, humem, huid⟩ := hu
  obtain ⟨q, hqmem, hq1, hq2⟩ := hp
  have hfsome : (db.films.find? (fun g => g.id == fid)).isSome :=
    List.find?_isSome.mpr ⟨f, hfmem, by simp [hfid]⟩
  cases hfind : db.films.find? (fun g => g.id == fid) with
  | none => rw [hfind] at hfsome; exact Bool.noConfusion hfsome
  | some g =>
    have husome : (db.users.find? (fun v => v.id == uid)).isSome :=
      List.find?_isSome.mpr ⟨u, humem, by simp [huid]⟩
    cases hufind : db.users.find? (fun v => v.id == uid) with
    | none => rw [hufind] at husome; exact Bool.noConfusion husome
    | some u' =>
      have hufind' : db.users.find? (fun v => v.id == uid) = some u' := hufind
      have huid' : u'.id = uid := by
        simpa using find?_pred (fun (v : User) => v.id == uid) hufind'
      have hcheck : PurchaseRepository.checkIfPurchased db u'.id fid = true := by
        simp only [PurchaseRepository.checkIfPurchased, PurchaseRepository.findByUserAndFilm]
        rw [Option.isSome_iff_exists]
        have : (db.purchases.find? (fun r => r.userId == u'.id && r.filmId == fid)).isSome :=
          List.find?_isSome.mpr ⟨q, hqmem, by simp [hq1, hq2, huid']⟩
        rcases Option.isSome_iff_exists.mp this with ⟨r, hr⟩
        exact ⟨r, hr⟩
      simp only [FilmService.purchaseFilm, FilmService.getFilmById, FilmRepository.findById,
        hfind, UserRepository.findById, hufind, hcheck, if_true, ite_true]

/-! ## Claim C1: at most one Purchase per (account, item) pair -/

/-- C1: in any state satisfying the storage foreign-key integrity, a
purchase for a pair that already has a Purchase fails with the 409 Conflict
("Film already purchased by this user") and leaves the purchases unchanged;
calling `purchaseFilm` twice sequentially with the same pair yields one
created Purchase and one Conflict; and every state reachable from the empty
store through the mutating service operations contains at most one Purchase
per (account, item) pair. -/
theorem purchase_pair_unique_spec :
    (∀ (db : DB) (pid : String) (now : Nat) (uid fid : String), Wf db →
      (∃ q ∈ db.purchases, q.userId = uid ∧ q.filmId = fid) →
      FilmService.purchaseFilm db pid now uid fid
        = .error (.apiError 409 "Film already purchased by this user" true)) ∧
    (∀ (db : DB) (pid1 pid2 : String) (n1 n2 : Nat) (uid fid : String)
        (p : Purchase) (db' : DB),
      FilmService.purchaseFilm db pid1 n1 uid fid = .ok (p, db') →
      FilmService.purchaseFilm db' pid2 n2 uid fid
        = .error (.apiError 409 "Film already purchased by this user" true)) ∧
    (∀ ops : List Op, PairsUnique (runOps ops)) := by
  refine ⟨?_, ?_, ?_⟩
  · intro db pid now uid fid hwf hp
    obtain ⟨q, hqmem, hq1, hq2⟩ := hp
    obtain ⟨f, hfmem, hfid⟩ := hwf.2 q hqmem
    obtain ⟨u, humem, huid⟩ := hwf.1 q hqmem
    exact purchaseFilm_conflict_core db pid now uid fid
      ⟨f, hfmem, hq2 ▸ hfid⟩ ⟨u, humem, hq1 ▸ huid⟩ ⟨q, hqmem, hq1, hq2⟩
  · intro db pid1 pid2 n1 n2 uid fid p db' hok
    obtain ⟨hpeq, hfilms, hpur, ⟨f, hfmem, hfid⟩, hu, -⟩ :=
      purchaseFilm_ok_spec db pid1 n1 uid fid p db' hok
    refine purchaseFilm_conflict_core db' pid2 n2 uid fid
      ⟨f, ?_, hfid⟩ hu ⟨p, ?_, ?_, ?_⟩
    · rw [hfilms]; exact hfmem
    · rw [hpur]; exact List.mem_append_right _ (List.mem_singleton_self _)
    · rw [hpeq]
    · rw [hpeq]
  · intro ops
    exact runOps_pairsUnique_aux ops emptyDB List.Pairwise.nil

/-- Witness for C1: a successful purchase followed by the same call again. -/
theorem purchase_pair_unique_spec_witness :
    FilmService.purchaseFilm
        ⟨[⟨"bob", "user-bob@polaroid.com", "User bob", 7⟩],
         [⟨"f1", "X", "d", 100, "u", "up", 0⟩],
         [⟨"p1", "bob", "f1", 7⟩]⟩ "p2" 9 "bob" "f1"
      = .error (.apiError 409 "Film already purchased by this user" true) :=
  purchase_pair_unique_spec.2.1 ⟨[], [⟨"f1", "X", "d", 100, "u", "up", 0⟩], []⟩
    "p1" "p2" 7 9 "bob" "f1" ⟨"p1", "bob", "f1", 7⟩
    ⟨[⟨"bob", "user-bob@polaroid.com", "User bob", 7⟩],
     [⟨"f1", "X", "d", 100, "u", "up", 0⟩],
     [⟨"p1", "bob", "f1", 7⟩]⟩ (by rfl)
